import Mathlib

/-!
Verification of the DQN-components notebook (replay buffer, step collector,
linear exploration schedule).

The Python source is shallowly embedded:

* numpy arrays become Lean `List`s (an array of shape `(n, d)` is a
  `List (List ℚ)` of `n` rows of length `d`); real numbers are modelled by `ℚ`.
* The implicit numpy random generator is modelled by an abstract entropy
  source `rng : Nat → Nat`; `np.random.randint` maps each raw draw into the
  requested half-open range, which captures the library's range guarantee
  while leaving the actual distribution abstract.
* Fallible operations (numpy raising `ValueError`) return `Except String`.
* For the exploration schedule, where the spec asserts exact `==` on Python
  floats, Python `float` is modelled as IEEE-754 binary64: a rational value
  together with a round-to-nearest, ties-to-even rounding function applied
  after every arithmetic operation (normal range only; no overflow or
  subnormal values occur in the computations at issue).
-/

/-- The mini-batch record returned by `ReplayBuffer.sample`
(`ReplayBufferSamples` dataclass of the notebook).  `observations`,
`next_observations` and `actions` are two-dimensional arrays (lists of rows);
`rewards` and `terminateds` are flat vectors. -/
structure ReplayBufferSamples where
  observations : List (List ℚ)
  next_observations : List (List ℚ)
  actions : List (List Int)
  rewards : List ℚ
  terminateds : List Bool
  deriving Repr, DecidableEq

/-- State of the `ReplayBuffer` class: ring-buffer position `current_idx`,
capacity `buffer_size`, the `is_full` flag, and the five parallel storage
arrays created in `__init__`. -/
structure ReplayBuffer where
  current_idx : Nat
  buffer_size : Nat
  is_full : Bool
  observations : List (List ℚ)
  next_observations : List (List ℚ)
  actions : List (List Int)
  rewards : List ℚ
  terminateds : List Bool
  deriving Repr, DecidableEq

/-- The success path of `ReplayBuffer.__init__` with a non-negative
`buffer_size` and observation dimension `obs_dim`: `current_idx = 0`,
`is_full = False`, and zero-filled backing arrays
(`np.zeros((buffer_size, obs_dim))`, actions of shape `(buffer_size, 1)`
since `action_dim = 1`, rewards and terminateds of shape `(buffer_size,)`). -/
def ReplayBuffer.new (buffer_size obs_dim : Nat) : ReplayBuffer where
  current_idx := 0
  buffer_size := buffer_size
  is_full := false
  observations := List.replicate buffer_size (List.replicate obs_dim 0)
  next_observations := List.replicate buffer_size (List.replicate obs_dim 0)
  actions := List.replicate buffer_size (List.replicate 1 0)
  rewards := List.replicate buffer_size 0
  terminateds := List.replicate buffer_size false

/-- `ReplayBuffer.__init__` as called with an arbitrary (Python `int`, hence
possibly negative) `buffer_size`.  The constructor itself performs no
capacity validation; the only failure mode is `np.zeros` raising
`ValueError: negative dimensions are not allowed` when `buffer_size < 0`.
`buffer_size = 0` is accepted and yields zero-length arrays. -/
def ReplayBuffer.init (buffer_size : Int) (obs_dim : Nat) : Except String ReplayBuffer :=
  if buffer_size < 0 then
    .error "ValueError: negative dimensions are not allowed"
  else
    .ok (ReplayBuffer.new buffer_size.toNat obs_dim)

/-- `ReplayBuffer.store_transition`: write the five fields into slot
`current_idx` (the action, a scalar, broadcasts into the length-1 row of the
`(buffer_size, 1)` actions array), advance the pointer, and on wrapping to
the end of the ring set it back to 0 and raise `is_full`.  No validation of
the action (or of anything else) is performed. -/
def ReplayBuffer.store_transition (b : ReplayBuffer) (obs next_obs : List ℚ)
    (action : Int) (reward : ℚ) (terminated : Bool) : ReplayBuffer :=
  let b := { b with
    observations := b.observations.set b.current_idx obs
    next_observations := b.next_observations.set b.current_idx next_obs
    actions := b.actions.set b.current_idx [action]
    rewards := b.rewards.set b.current_idx reward
    terminateds := b.terminateds.set b.current_idx terminated }
  let b := { b with current_idx := b.current_idx + 1 }
  if b.current_idx = b.buffer_size then
    { b with current_idx := 0, is_full := true }
  else
    b

/-- The sampleable range computed on the first line of
`ReplayBuffer.sample`: `self.buffer_size if self.is_full else
self.current_idx`. -/
def ReplayBuffer.upper_bound (b : ReplayBuffer) : Nat :=
  if b.is_full then b.buffer_size else b.current_idx

/-- Model of `np.random.randint(low, high, size)` driven by an abstract
entropy source `rng`: raises `ValueError` when `high <= low`, otherwise
returns `size` values, each guaranteed to lie in `[low, high)`. -/
def np_random_randint (low high size : Nat) (rng : Nat → Nat) :
    Except String (List Nat) :=
  if high ≤ low then
    .error "ValueError: low >= high"
  else
    .ok ((List.range size).map fun j => low + rng j % (high - low))

/-- `ReplayBuffer.sample`: draw `batch_size` indices with replacement from
`[0, upper_bound)` via `np.random.randint` and gather the five fields at
those indices (numpy fancy indexing, modelled with `List.getD`; inside the
sampleable range the defaults are never used). -/
def ReplayBuffer.sample (b : ReplayBuffer) (batch_size : Nat) (rng : Nat → Nat) :
    Except String ReplayBufferSamples :=
  match np_random_randint 0 b.upper_bound batch_size rng with
  | .error e => .error e
  | .ok batch_indices =>
      .ok { observations := batch_indices.map fun i => b.observations.getD i []
            next_observations := batch_indices.map fun i => b.next_observations.getD i []
            actions := batch_indices.map fun i => b.actions.getD i []
            rewards := batch_indices.map fun i => b.rewards.getD i 0
            terminateds := batch_indices.map fun i => b.terminateds.getD i false }

/-- One transition as passed to `store_transition`. -/
structure Transition where
  obs : List ℚ
  next_obs : List ℚ
  action : Int
  reward : ℚ
  terminated : Bool
  deriving Repr, DecidableEq

/-- Store a packaged transition. -/
def ReplayBuffer.store1 (b : ReplayBuffer) (t : Transition) : ReplayBuffer :=
  b.store_transition t.obs t.next_obs t.action t.reward t.terminated

/-- Run a sequence of `store_transition` calls, oldest first. -/
def applyStores (b : ReplayBuffer) (ts : List Transition) : ReplayBuffer :=
  ts.foldl ReplayBuffer.store1 b

example : (ReplayBuffer.new 2 1).buffer_size = 2 := rfl
example : (ReplayBuffer.init (-1) 4) = .error "ValueError: negative dimensions are not allowed" := rfl
example :
    (applyStores (ReplayBuffer.new 2 1)
      [⟨[0], [0], 0, 0, false⟩, ⟨[1], [1], 1, 1, true⟩]).is_full = true := by decide
example :
    (applyStores (ReplayBuffer.new 2 1) [⟨[0], [0], 0, 0, false⟩]).is_full = false := by decide
example :
    (applyStores (ReplayBuffer.new 2 1) [⟨[0], [0], 0, 0, false⟩]).current_idx = 1 := by decide

/-- The data returned by one `env.step(action)` call: next observation,
reward, terminated flag, truncated flag (the `info` dict is unused by the
stored transition and the return value, and is omitted). -/
structure EnvStep where
  next_obs : List ℚ
  reward : ℚ
  terminated : Bool
  truncated : Bool
  deriving Repr, DecidableEq

/-- `collect_one_step`: the environment and the epsilon-greedy selector are
modelled as oracles — `selectAction` is the result of
`epsilon_greedy_action_selection` on an observation, `step` maps the chosen
action to the tuple returned by `env.step`, and `resetObs` is the
observation `env.reset()` would return.  The function stores
`(obs, next_obs, action, reward, terminated)` in the buffer — the truncated
flag is not stored — and returns the updated buffer together with the
observation handed back to the caller: the reset observation when
`terminated or truncated`, otherwise the stepped-to observation. -/
def collect_one_step (step : Int → EnvStep) (resetObs : List ℚ)
    (selectAction : List ℚ → Int) (replay_buffer : ReplayBuffer)
    (obs : List ℚ) : ReplayBuffer × List ℚ :=
  let action := selectAction obs
  let r := step action
  let next_obs := r.next_obs
  let buffer := replay_buffer.store_transition obs next_obs action r.reward r.terminated
  let obs := next_obs
  let done := r.terminated || r.truncated
  let obs := if done then resetObs else obs
  (buffer, obs)

/-- Floor of the base-2 logarithm of a natural number, with explicit fuel so
that the recursion is structural (64 halvings cover every input below
`2 ^ 64`, beyond the double-precision magnitudes arising here). -/
def log2fuel : Nat → Nat → Nat
  | 0, _ => 0
  | fuel + 1, n => if n ≤ 1 then 0 else log2fuel fuel (n / 2) + 1

/-- `2 ^ e` as a rational, for integer `e` of either sign. -/
def pow2 (e : Int) : ℚ :=
  if 0 ≤ e then ((2 ^ e.toNat : Nat) : ℚ) else 1 / ((2 ^ (-e).toNat : Nat) : ℚ)

/-- Absolute value of a rational, by cases on the sign. -/
def ratAbs (q : ℚ) : ℚ := if q < 0 then -q else q

/-- Floor of the base-2 logarithm of a positive rational: the bit-length
difference of numerator and denominator is correct up to one, and is then
adjusted downward if needed. -/
def floorLog2 (q : ℚ) : Int :=
  let e : Int := (log2fuel 64 q.num.natAbs : Int) - (log2fuel 64 q.den : Int)
  if q < pow2 e then e - 1 else e

/-- Floor of a rational, computed directly from the reduced fraction. -/
def ratFloor (q : ℚ) : Int := Int.fdiv q.num (q.den : Int)

/-- Round a rational to the nearest integer, ties to even. -/
def roundHalfEven (q : ℚ) : Int :=
  let f := ratFloor q
  let r := q - (f : ℚ)
  if r < 1 / 2 then f
  else if 1 / 2 < r then f + 1
  else if f % 2 = 0 then f else f + 1

/-- Round a rational to IEEE-754 binary64 (round to nearest, ties to even;
normal range only — overflow and subnormal handling are irrelevant for the
magnitudes occurring in the schedule computations). -/
def fl (q : ℚ) : ℚ :=
  if q = 0 then 0
  else
    let e : Int := floorLog2 (ratAbs q) - 52
    let m : Int := roundHalfEven (ratAbs q * pow2 (-e))
    (if q < 0 then (-1 : ℚ) else 1) * (m : ℚ) * pow2 e

/-- Correctly rounded binary64 addition. -/
def fadd (a b : ℚ) : ℚ := fl (a + b)

/-- Correctly rounded binary64 subtraction. -/
def fsub (a b : ℚ) : ℚ := fl (a - b)

/-- Correctly rounded binary64 multiplication. -/
def fmul (a b : ℚ) : ℚ := fl (a * b)

/-- Correctly rounded binary64 division. -/
def fdiv (a b : ℚ) : ℚ := fl (a / b)

/-- `np.minimum` on two doubles: the exact smaller value. -/
def fmin (a b : ℚ) : ℚ := if a ≤ b then a else b

/-- `linear_schedule` over binary64 arithmetic:
`progress = float(current_step) / max_steps` (both conversions exact for
the magnitudes in scope, the division correctly rounded), clamped by
`np.minimum(progress, 1.0)` (exact comparison of doubles), then
`initial_value + progress * (final_value - initial_value)` evaluated
operation by operation in double precision. -/
def linear_schedule (initial_value final_value : ℚ)
    (current_step max_steps : Int) : ℚ :=
  let progress := fdiv (fl (current_step : ℚ)) (fl (max_steps : ℚ))
  let progress := fmin progress 1
  fadd initial_value (fmul progress (fsub final_value initial_value))

attribute [local semireducible] Rat.mul Rat.add Rat.sub Rat.inv

set_option maxRecDepth 100000

example : fl 1 = 1 := by decide
example : fl (1 / 10) = 3602879701896397 / 36028797018963968 := by decide
example : linear_schedule 1 (fl (1 / 10)) 0 100 = 1 := by decide
example : linear_schedule 1 (fl (1 / 10)) 100 100 = 900719925474099 / 9007199254740992 := by decide
example : linear_schedule 1 (fl (1 / 10)) 150 100 = 900719925474099 / 9007199254740992 := by decide
example : linear_schedule 1 (fl (1 / 10)) 50 100 = fl (11 / 20) := by decide
example : linear_schedule 1 (fl (1 / 10)) 100 100 ≠ fl (1 / 10) := by decide

/-- The counter fields after one `store_transition` call: capacity is
unchanged, the write index advances and wraps to 0 at the capacity, and
`is_full` is raised on a wrap and never lowered. -/
theorem store_counters (b : ReplayBuffer) (obs next_obs : List ℚ) (a : Int)
    (r : ℚ) (t : Bool) :
    (b.store_transition obs next_obs a r t).buffer_size = b.buffer_size ∧
      (b.store_transition obs next_obs a r t).current_idx =
        (if b.current_idx + 1 = b.buffer_size then 0 else b.current_idx + 1) ∧
      (b.store_transition obs next_obs a r t).is_full =
        (b.is_full || decide (b.current_idx + 1 = b.buffer_size)) := by
  simp only [ReplayBuffer.store_transition]
  split <;> simp_all

/-- One `store_transition` call advances the store count from `n` to `n + 1`:
the capacity is unchanged, the write index stays `count mod capacity`, and
`is_full` stays `capacity ≤ count`. -/
theorem store1_counts (C n : Nat) (hC : 1 ≤ C) (b : ReplayBuffer)
    (hb : b.buffer_size = C) (hidx : b.current_idx = n % C)
    (hfull : b.is_full = decide (C ≤ n)) (t : Transition) :
    (b.store1 t).buffer_size = C ∧ (b.store1 t).current_idx = (n + 1) % C ∧
      (b.store1 t).is_full = decide (C ≤ n + 1) := by
  obtain ⟨e1, e2, e3⟩ :=
    store_counters b t.obs t.next_obs t.action t.reward t.terminated
  have hlt : n % C < C := Nat.mod_lt _ (by omega)
  have hle : n % C ≤ n := Nat.mod_le n C
  have hmod : (n % C + 1) % C = (n + 1) % C := Nat.mod_add_mod n C 1
  rw [hb, hidx] at e2
  rw [hb, hidx, hfull] at e3
  refine ⟨by rw [ReplayBuffer.store1, e1, hb], ?_, ?_⟩
  · rw [ReplayBuffer.store1, e2]
    by_cases h : n % C + 1 = C
    · rw [if_pos h, ← hmod, h, Nat.mod_self]
    · rw [if_neg h, ← hmod]
      exact (Nat.mod_eq_of_lt (by omega)).symm
  · rw [ReplayBuffer.store1, e3]
    by_cases h : n % C + 1 = C
    · have h1 : C ≤ n + 1 := by omega
      simp [h, h1]
    · by_cases hn : C ≤ n
      · have h1 : C ≤ n + 1 := by omega
        simp [hn, h1]
      · have h2 : n % C = n := Nat.mod_eq_of_lt (by omega)
        have h4 : ¬ n + 1 = C := by rw [h2] at h; exact h
        have h3 : ¬ C ≤ n + 1 := by omega
        simp [hn, h, h3]

/-- Running a list of stores advances the count by the list length. -/
theorem applyStores_counts (C : Nat) (hC : 1 ≤ C) (ts : List Transition) :
    ∀ (n : Nat) (b : ReplayBuffer),
      b.buffer_size = C → b.current_idx = n % C → b.is_full = decide (C ≤ n) →
      (applyStores b ts).buffer_size = C ∧
        (applyStores b ts).current_idx = (n + ts.length) % C ∧
        (applyStores b ts).is_full = decide (C ≤ n + ts.length) := by
  induction ts with
  | nil =>
      intro n b hb hidx hfull
      simpa [applyStores] using ⟨hb, hidx, hfull⟩
  | cons t ts ih =>
      intro n b hb hidx hfull
      have h1 := store1_counts C n hC b hb hidx hfull t
      have h2 := ih (n + 1) (b.store1 t) h1.1 h1.2.1 h1.2.2
      have e : n + 1 + ts.length = n + (t :: ts).length := by
        simp [List.length_cons]; omega
      rw [e] at h2
      simpa [applyStores, List.foldl_cons] using h2

/-- After `n` stores into a freshly constructed buffer of capacity `C ≥ 1`,
the capacity is `C`, the write index is `n mod C`, and `is_full` holds
exactly when `C ≤ n`. -/
theorem fresh_counts (C d : Nat) (hC : 1 ≤ C) (ts : List Transition) :
    (applyStores (ReplayBuffer.new C d) ts).buffer_size = C ∧
      (applyStores (ReplayBuffer.new C d) ts).current_idx = ts.length % C ∧
      (applyStores (ReplayBuffer.new C d) ts).is_full = decide (C ≤ ts.length) := by
  have h0 : (ReplayBuffer.new C d).is_full = decide (C ≤ 0) := by
    have h : ¬ C ≤ 0 := by omega
    simp [ReplayBuffer.new, h]
  have := applyStores_counts C hC ts 0 (ReplayBuffer.new C d) rfl
    (by simp [ReplayBuffer.new]) h0
  simpa using this

/-- Structural well-formedness of a buffer state: positive capacity, write
index in range, the five storage arrays of length `buffer_size`, and every
row of the actions array of width 1. -/
def ReplayBuffer.wf (b : ReplayBuffer) : Prop :=
  1 ≤ b.buffer_size ∧ b.current_idx < b.buffer_size ∧
    b.observations.length = b.buffer_size ∧
    b.next_observations.length = b.buffer_size ∧
    b.actions.length = b.buffer_size ∧
    b.rewards.length = b.buffer_size ∧
    b.terminateds.length = b.buffer_size ∧
    ∀ row ∈ b.actions, row.length = 1

instance (b : ReplayBuffer) : Decidable b.wf := by
  unfold ReplayBuffer.wf; infer_instance

/-- A freshly constructed buffer of positive capacity is well formed. -/
theorem wf_new (C d : Nat) (hC : 1 ≤ C) : (ReplayBuffer.new C d).wf := by
  unfold ReplayBuffer.wf ReplayBuffer.new
  refine ⟨hC, by simpa using hC, by simp, by simp, by simp, by simp, by simp, ?_⟩
  intro row hrow
  simp [List.eq_of_mem_replicate hrow]

/-- The five storage fields after a `store_transition` call: each is the old
array with slot `current_idx` overwritten (in both the wrapping and the
non-wrapping branch). -/
theorem store_fields (b : ReplayBuffer) (obs next_obs : List ℚ) (a : Int)
    (r : ℚ) (t : Bool) :
    (b.store_transition obs next_obs a r t).observations = b.observations.set b.current_idx obs ∧
      (b.store_transition obs next_obs a r t).next_observations = b.next_observations.set b.current_idx next_obs ∧
      (b.store_transition obs next_obs a r t).actions = b.actions.set b.current_idx [a] ∧
      (b.store_transition obs next_obs a r t).rewards = b.rewards.set b.current_idx r ∧
      (b.store_transition obs next_obs a r t).terminateds = b.terminateds.set b.current_idx t := by
  simp only [ReplayBuffer.store_transition]
  split <;> simp

/-- `store_transition` preserves well-formedness. -/
theorem wf_store (b : ReplayBuffer) (h : b.wf) (obs next_obs : List ℚ)
    (a : Int) (r : ℚ) (t : Bool) : (b.store_transition obs next_obs a r t).wf := by
  obtain ⟨h1, h2, h3, h4, h5, h6, h7, h8⟩ := h
  obtain ⟨f1, f2, f3, f4, f5⟩ := store_fields b obs next_obs a r t
  obtain ⟨e1, e2, e3⟩ := store_counters b obs next_obs a r t
  refine ⟨by rw [e1]; exact h1, ?_, ?_, ?_, ?_, ?_, ?_, ?_⟩
  · rw [e1, e2]
    by_cases hw : b.current_idx + 1 = b.buffer_size
    · rw [if_pos hw]; omega
    · rw [if_neg hw]; omega
  · rw [f1, e1, List.length_set]; exact h3
  · rw [f2, e1, List.length_set]; exact h4
  · rw [f3, e1, List.length_set]; exact h5
  · rw [f4, e1, List.length_set]; exact h6
  · rw [f5, e1, List.length_set]; exact h7
  · rw [f3]
    intro row hrow
    rcases List.mem_or_eq_of_mem_set hrow with hmem | hrow1
    · exact h8 row hmem
    · simp [hrow1]

/-- Any sequence of stores preserves well-formedness. -/
theorem wf_applyStores (ts : List Transition) :
    ∀ b : ReplayBuffer, b.wf → (applyStores b ts).wf := by
  induction ts with
  | nil => intro b hb; simpa [applyStores] using hb
  | cons t ts ih =>
      intro b hb
      simpa [applyStores, List.foldl_cons] using
        ih (b.store1 t) (wf_store b hb t.obs t.next_obs t.action t.reward t.terminated)

/-- The sampleable range of a freshly filled buffer: `n mod C` while not
full, `C` once full — i.e. `min n C` for `n` stores. -/
theorem fresh_upper_bound (C d : Nat) (hC : 1 ≤ C) (ts : List Transition) :
    (applyStores (ReplayBuffer.new C d) ts).upper_bound = min ts.length C := by
  obtain ⟨hb, hidx, hfull⟩ := fresh_counts C d hC ts
  unfold ReplayBuffer.upper_bound
  rw [hfull, hb, hidx]
  by_cases h : C ≤ ts.length
  · rw [if_pos (by simpa using h)]
    omega
  · rw [if_neg (by simpa using h)]
    rw [Nat.mod_eq_of_lt (by omega)]
    omega

/-- Claim C1: for every capacity `C ≥ 1` and every sequence of
`store_transition` calls on a freshly constructed buffer, `is_full` is true
exactly when at least `C` stores have happened — it becomes true at the
`C`-th store (when the write index wraps back to 0) and never reverts to
false afterwards; no operation resets it (`sample` does not modify the
buffer in this embedding). -/
theorem c1_is_full_after_capacity_stores (C d : Nat) (hC : 1 ≤ C)
    (ts : List Transition) :
    (applyStores (ReplayBuffer.new C d) ts).is_full = true ↔ C ≤ ts.length := by
  rw [(fresh_counts C d hC ts).2.2]
  simp

theorem c1_witness :
    (1 ≤ 2) ∧
      ((applyStores (ReplayBuffer.new 2 1)
          [⟨[0], [0], 0, 0, false⟩, ⟨[1], [1], 1, 1, true⟩]).is_full = true ↔
        2 ≤ ([⟨[0], [0], 0, 0, false⟩, ⟨[1], [1], 1, 1, true⟩] : List Transition).length) :=
  ⟨by decide, c1_is_full_after_capacity_stores 2 1 (by decide)
    [⟨[0], [0], 0, 0, false⟩, ⟨[1], [1], 1, 1, true⟩]⟩

/-- Claim C2: after `C + k` stores into a fresh buffer of capacity `C ≥ 1`,
the write index equals `k mod C` and the range computed by `sample`
(`upper_bound`) equals `C`. -/
theorem c2_index_and_range_after_wrap (C d k : Nat) (hC : 1 ≤ C)
    (ts : List Transition) (hlen : ts.length = C + k) :
    (applyStores (ReplayBuffer.new C d) ts).current_idx = k % C ∧
      (applyStores (ReplayBuffer.new C d) ts).upper_bound = C := by
  obtain ⟨hb, hidx, hfull⟩ := fresh_counts C d hC ts
  have hub := fresh_upper_bound C d hC ts
  constructor
  · rw [hidx, hlen, Nat.add_mod_left]
  · rw [hub, hlen]
    omega

theorem c2_witness :
    (1 ≤ 2) ∧
      (([⟨[0], [0], 0, 0, false⟩, ⟨[1], [1], 1, 1, true⟩,
          ⟨[2], [2], 0, 2, false⟩] : List Transition).length = 2 + 1) ∧
      (applyStores (ReplayBuffer.new 2 1)
          [⟨[0], [0], 0, 0, false⟩, ⟨[1], [1], 1, 1, true⟩,
            ⟨[2], [2], 0, 2, false⟩]).current_idx = 1 % 2 ∧
      (applyStores (ReplayBuffer.new 2 1)
          [⟨[0], [0], 0, 0, false⟩, ⟨[1], [1], 1, 1, true⟩,
            ⟨[2], [2], 0, 2, false⟩]).upper_bound = 2 :=
  ⟨by decide, by decide,
    c2_index_and_range_after_wrap 2 1 1 (by decide)
      [⟨[0], [0], 0, 0, false⟩, ⟨[1], [1], 1, 1, true⟩, ⟨[2], [2], 0, 2, false⟩]
      (by decide)⟩

/-- Counterexample to claim C4 as stated: with capacity `C = 1`, after
`n = 1 ≤ C` stores `is_full` is already true (the write index wrapped on
the very store that reached the capacity), not false. -/
theorem c4_counterexample :
    (([⟨[0], [0], 0, 0, false⟩] : List Transition).length ≤ 1) ∧
      (applyStores (ReplayBuffer.new 1 1)
        [⟨[0], [0], 0, 0, false⟩]).is_full = true := by
  decide

/-- Claim C4, amended: after `n ≤ C` stores into a fresh buffer of capacity
`C ≥ 1`, the sampleable range (the `upper_bound` computed by `sample`) has
exactly `n` elements, and `is_full` is false provided `n < C` (at `n = C`
the range is still `n = C` but `is_full` has just become true). -/
theorem c4_amended_not_full_range (C d : Nat) (hC : 1 ≤ C)
    (ts : List Transition) (hn : ts.length ≤ C) :
    (applyStores (ReplayBuffer.new C d) ts).upper_bound = ts.length ∧
      (ts.length < C → (applyStores (ReplayBuffer.new C d) ts).is_full = false) := by
  obtain ⟨hb, hidx, hfull⟩ := fresh_counts C d hC ts
  have hub := fresh_upper_bound C d hC ts
  constructor
  · rw [hub]; omega
  · intro hlt
    rw [hfull]
    simp only [decide_eq_false_iff_not]
    omega

theorem c4_witness :
    (1 ≤ 3) ∧ (([⟨[0], [0], 0, 0, false⟩] : List Transition).length ≤ 3) ∧
      (applyStores (ReplayBuffer.new 3 1) [⟨[0], [0], 0, 0, false⟩]).upper_bound =
        ([⟨[0], [0], 0, 0, false⟩] : List Transition).length ∧
      (([⟨[0], [0], 0, 0, false⟩] : List Transition).length < 3 →
        (applyStores (ReplayBuffer.new 3 1) [⟨[0], [0], 0, 0, false⟩]).is_full = false) :=
  ⟨by decide, by decide,
    c4_amended_not_full_range 3 1 (by decide) [⟨[0], [0], 0, 0, false⟩] (by decide)⟩

/-- Claim C7: sampling from a buffer into which nothing has ever been stored
fails for every batch size: `is_full` is false and the write index is 0, so
`upper_bound = 0` and `np.random.randint(0, 0, batch_size)` raises
`ValueError`. -/
theorem c7_sample_empty_buffer_fails (C d batch_size : Nat) (rng : Nat → Nat) :
    (ReplayBuffer.new C d).sample batch_size rng =
      .error "ValueError: low >= high" := rfl

/-- Counterexample to claim C8 as stated: constructing a buffer with
capacity 0 does not fail — `__init__` performs no validation and
`np.zeros` accepts a zero dimension, so a buffer object is returned. -/
theorem c8_counterexample :
    ReplayBuffer.init 0 4 = .ok (ReplayBuffer.new 0 4) := rfl

/-- Claim C8, amended: construction fails exactly for negative capacity
(`np.zeros` raises `ValueError: negative dimensions are not allowed`);
any capacity `≥ 0` — including 0 — is accepted and yields a buffer. -/
theorem c8_amended_init_fails_iff_negative (c : Int) (d : Nat) :
    (c < 0 → ReplayBuffer.init c d =
        .error "ValueError: negative dimensions are not allowed") ∧
      (0 ≤ c → ReplayBuffer.init c d = .ok (ReplayBuffer.new c.toNat d)) := by
  unfold ReplayBuffer.init
  constructor
  · intro h; rw [if_pos h]
  · intro h; rw [if_neg (by omega)]

theorem c8_witness :
    ReplayBuffer.init (-1) 4 =
      .error "ValueError: negative dimensions are not allowed" :=
  (c8_amended_init_fails_iff_negative (-1) 4).1 (by decide)

/-- Counterexample to claim C9 as stated: storing the action 5 into a
fresh capacity-4 buffer for a 2-action environment (5 is outside `[0, 2)`)
does not fail — `store_transition` returns normally and the invalid value
sits in slot 0 of the actions array. -/
theorem c9_counterexample :
    ((ReplayBuffer.new 4 1).store_transition [0] [0] 5 0 false).actions =
      [[5], [0], [0], [0]] := by decide

/-- Claim C9, amended: `store_transition` performs no action validation at
all — for any well-formed buffer, whatever integer is passed as the action
(in range or not) is written unchanged into slot `current_idx`. -/
theorem c9_amended_action_stored_unvalidated (b : ReplayBuffer) (hwf : b.wf)
    (obs next_obs : List ℚ) (a : Int) (r : ℚ) (t : Bool) :
    (b.store_transition obs next_obs a r t).actions[b.current_idx]? = some [a] := by
  obtain ⟨h1, h2, h3, h4, h5, h6, h7, h8⟩ := hwf
  rw [(store_fields b obs next_obs a r t).2.2.1]
  exact List.getElem?_set_self (by omega)

theorem c9_witness :
    ((ReplayBuffer.new 4 1).store_transition [0] [0] 5 0 false).actions[
      (ReplayBuffer.new 4 1).current_idx]? = some [5] :=
  c9_amended_action_stored_unvalidated (ReplayBuffer.new 4 1) (by decide)
    [0] [0] 5 0 false

/-- Claim C3: on a fresh buffer of capacity `C ≥ 1` holding at least one
stored transition, every index drawn by `sample` lies in
`[0, upper_bound)`; moreover every drawn index is below both the number of
stores and the capacity, so a slot that has never been written (an index at
or above `min n C`) is never returned. -/
theorem c3_sampled_indices_in_populated_range (C d : Nat) (hC : 1 ≤ C)
    (ts : List Transition) (hne : ts ≠ []) (batch_size : Nat) (rng : Nat → Nat) :
    ∃ idxs : List Nat,
      np_random_randint 0 (applyStores (ReplayBuffer.new C d) ts).upper_bound
          batch_size rng = .ok idxs ∧
        idxs.length = batch_size ∧
        ∀ i ∈ idxs,
          i < (applyStores (ReplayBuffer.new C d) ts).upper_bound ∧
            i < ts.length ∧ i < C := by
  have hub := fresh_upper_bound C d hC ts
  have hlen : 0 < ts.length := List.length_pos.mpr hne
  have hpos : 0 < (applyStores (ReplayBuffer.new C d) ts).upper_bound := by
    rw [hub]; omega
  unfold np_random_randint
  rw [if_neg (by omega)]
  refine ⟨_, rfl, by simp, ?_⟩
  intro i hi
  simp only [List.mem_map, List.mem_range] at hi
  obtain ⟨j, hj, rfl⟩ := hi
  have h0 : 0 < (applyStores (ReplayBuffer.new C d) ts).upper_bound - 0 := by omega
  have hm := Nat.mod_lt (rng j) h0
  omega

theorem c3_witness :
    (1 ≤ 4) ∧
      (([⟨[0], [0], 0, 1, false⟩, ⟨[1], [1], 1, 1, false⟩,
          ⟨[2], [2], 0, 1, false⟩] : List Transition) ≠ []) ∧
      ∃ idxs : List Nat,
        np_random_randint 0
            (applyStores (ReplayBuffer.new 4 1)
              [⟨[0], [0], 0, 1, false⟩, ⟨[1], [1], 1, 1, false⟩,
                ⟨[2], [2], 0, 1, false⟩]).upper_bound 100 (fun j => j) = .ok idxs ∧
          idxs.length = 100 ∧
          ∀ i ∈ idxs,
            i < (applyStores (ReplayBuffer.new 4 1)
                  [⟨[0], [0], 0, 1, false⟩, ⟨[1], [1], 1, 1, false⟩,
                    ⟨[2], [2], 0, 1, false⟩]).upper_bound ∧
              i < ([⟨[0], [0], 0, 1, false⟩, ⟨[1], [1], 1, 1, false⟩,
                    ⟨[2], [2], 0, 1, false⟩] : List Transition).length ∧ i < 4 :=
  ⟨by decide, by decide,
    c3_sampled_indices_in_populated_range 4 1 (by decide)
      [⟨[0], [0], 0, 1, false⟩, ⟨[1], [1], 1, 1, false⟩, ⟨[2], [2], 0, 1, false⟩]
      (by decide) 100 (fun j => j)⟩

/-- Claim C10: for a fresh buffer of capacity `C ≥ 1` with at least one
stored transition and any `batch_size ≥ 1`, `sample` succeeds and returns
five collections that are parallel in their leading dimension (all of
length `batch_size`), with every sampled action a row of width 1 (the
actions array has shape `(batch_size, 1)`) while rewards and terminateds
are flat vectors of scalars. -/
theorem c10_sample_shapes (C d : Nat) (hC : 1 ≤ C) (ts : List Transition)
    (hne : ts ≠ []) (batch_size : Nat) (hbs : 1 ≤ batch_size) (rng : Nat → Nat) :
    ∃ s : ReplayBufferSamples,
      (applyStores (ReplayBuffer.new C d) ts).sample batch_size rng = .ok s ∧
        s.observations.length = batch_size ∧
        s.next_observations.length = batch_size ∧
        s.actions.length = batch_size ∧
        (∀ row ∈ s.actions, row.length = 1) ∧
        s.rewards.length = batch_size ∧
        s.terminateds.length = batch_size := by
  have hub := fresh_upper_bound C d hC ts
  have hb := (fresh_counts C d hC ts).1
  obtain ⟨w1, w2, w3, w4, w5, w6, w7, w8⟩ :=
    wf_applyStores ts (ReplayBuffer.new C d) (wf_new C d hC)
  have hlen : 0 < ts.length := List.length_pos.mpr hne
  have hpos : 0 < (applyStores (ReplayBuffer.new C d) ts).upper_bound := by
    rw [hub]; omega
  unfold ReplayBuffer.sample np_random_randint
  rw [if_neg (by omega)]
  refine ⟨_, rfl, by simp, by simp, by simp, ?_, by simp, by simp⟩
  intro row hrow
  simp only [List.mem_map, List.mem_range] at hrow
  obtain ⟨i, ⟨j, hj, rfl⟩, rfl⟩ := hrow
  have h0 : 0 < (applyStores (ReplayBuffer.new C d) ts).upper_bound - 0 := by omega
  have hm := Nat.mod_lt (rng j) h0
  have hidx : 0 + rng j % ((applyStores (ReplayBuffer.new C d) ts).upper_bound - 0) <
      (applyStores (ReplayBuffer.new C d) ts).actions.length := by omega
  rw [List.getD_eq_getElem?_getD, List.getElem?_eq_getElem hidx]
  simpa using w8 _ (List.getElem_mem hidx)

theorem c10_witness :
    (1 ≤ 2) ∧ (([⟨[0], [0], 1, 1, false⟩] : List Transition) ≠ []) ∧ (1 ≤ 5) ∧
      ∃ s : ReplayBufferSamples,
        (applyStores (ReplayBuffer.new 2 1)
            [⟨[0], [0], 1, 1, false⟩]).sample 5 (fun j => j) = .ok s ∧
          s.observations.length = 5 ∧
          s.next_observations.length = 5 ∧
          s.actions.length = 5 ∧
          (∀ row ∈ s.actions, row.length = 1) ∧
          s.rewards.length = 5 ∧
          s.terminateds.length = 5 :=
  ⟨by decide, by decide, by decide,
    c10_sample_shapes 2 1 (by decide) [⟨[0], [0], 1, 1, false⟩] (by decide) 5
      (by decide) (fun j => j)⟩

/-- Claim C5: `collect_one_step` stores exactly the quintuple
(current observation, stepped-to next observation, selected action, reward,
terminated) into the buffer — the environment's terminated flag only, the
truncated flag is not recorded — and hands back the reset observation when
the step terminated or truncated, otherwise the stepped-to observation. -/
theorem c5_collect_one_step_contract (stepf : Int → EnvStep)
    (resetObs obs : List ℚ) (selectAction : List ℚ → Int)
    (b : ReplayBuffer) (hwf : b.wf) :
    (collect_one_step stepf resetObs selectAction b obs).1 =
        b.store_transition obs (stepf (selectAction obs)).next_obs
          (selectAction obs) (stepf (selectAction obs)).reward
          (stepf (selectAction obs)).terminated ∧
      (collect_one_step stepf resetObs selectAction b obs).1.observations[b.current_idx]? =
        some obs ∧
      (collect_one_step stepf resetObs selectAction b obs).1.next_observations[b.current_idx]? =
        some (stepf (selectAction obs)).next_obs ∧
      (collect_one_step stepf resetObs selectAction b obs).1.actions[b.current_idx]? =
        some [selectAction obs] ∧
      (collect_one_step stepf resetObs selectAction b obs).1.rewards[b.current_idx]? =
        some (stepf (selectAction obs)).reward ∧
      (collect_one_step stepf resetObs selectAction b obs).1.terminateds[b.current_idx]? =
        some (stepf (selectAction obs)).terminated ∧
      (collect_one_step stepf resetObs selectAction b obs).2 =
        (if (stepf (selectAction obs)).terminated || (stepf (selectAction obs)).truncated
          then resetObs else (stepf (selectAction obs)).next_obs) := by
  obtain ⟨h1, h2, h3, h4, h5, h6, h7, h8⟩ := hwf
  obtain ⟨f1, f2, f3, f4, f5⟩ := store_fields b obs (stepf (selectAction obs)).next_obs
    (selectAction obs) (stepf (selectAction obs)).reward
    (stepf (selectAction obs)).terminated
  have hfst : (collect_one_step stepf resetObs selectAction b obs).1 =
      b.store_transition obs (stepf (selectAction obs)).next_obs
        (selectAction obs) (stepf (selectAction obs)).reward
        (stepf (selectAction obs)).terminated := rfl
  refine ⟨hfst, ?_, ?_, ?_, ?_, ?_, rfl⟩
  · rw [hfst, f1]; exact List.getElem?_set_self (by omega)
  · rw [hfst, f2]; exact List.getElem?_set_self (by omega)
  · rw [hfst, f3]; exact List.getElem?_set_self (by omega)
  · rw [hfst, f4]; exact List.getElem?_set_self (by omega)
  · rw [hfst, f5]; exact List.getElem?_set_self (by omega)

theorem c5_witness :
    (collect_one_step (fun _ => ⟨[5], 1, false, true⟩) [9] (fun _ => 7)
        (ReplayBuffer.new 2 1) [3]).1.actions[(ReplayBuffer.new 2 1).current_idx]? =
      some [7] ∧
    (collect_one_step (fun _ => ⟨[5], 1, false, true⟩) [9] (fun _ => 7)
        (ReplayBuffer.new 2 1) [3]).1.terminateds[(ReplayBuffer.new 2 1).current_idx]? =
      some false ∧
    (collect_one_step (fun _ => ⟨[5], 1, false, true⟩) [9] (fun _ => 7)
        (ReplayBuffer.new 2 1) [3]).2 = [9] := by
  have h := c5_collect_one_step_contract (fun _ => ⟨[5], 1, false, true⟩) [9] [3]
    (fun _ => 7) (ReplayBuffer.new 2 1) (by decide)
  exact ⟨h.2.2.2.1, h.2.2.2.2.2.1, h.2.2.2.2.2.2⟩

/-- Counterexample to claim C6 as stated: in double precision,
`linear_schedule(1.0, 0.1, 100, 100)` evaluates to
`1.0 + 1.0 * (0.1 - 1.0) = 0.09999999999999998`
(the dyadic `900719925474099 / 2 ^ 53`), which is not equal to the double
`0.1`, even though exact real arithmetic would give `0.1` here. -/
theorem c6_counterexample :
    linear_schedule 1 (fl (1 / 10)) 100 100 ≠ fl (1 / 10) ∧
      linear_schedule 1 (fl (1 / 10)) 100 100 =
        900719925474099 / 9007199254740992 := by
  exact ⟨by decide, by decide⟩

/-- Claim C6, amended: `linear_schedule` computes
`initial + min(float(step)/max_steps, 1.0) * (final - initial)` with every
operation correctly rounded to binary64; on the spec's probe points,
`linear_schedule(1.0, 0.1, 0, 100) == 1.0` and
`linear_schedule(1.0, 0.1, 50, 100) == 0.55` hold exactly, but at and
beyond `max_steps` the result is `0.09999999999999998`
(`900719925474099 / 2 ^ 53`), one last-place unit short of `0.1` — the
schedule is still constant from `max_steps` on, just not equal to the
double `0.1`. -/
theorem c6_amended_linear_schedule :
    (∀ (i f : ℚ) (s m : Int),
        linear_schedule i f s m =
          fadd i (fmul (fmin (fdiv (fl (s : ℚ)) (fl (m : ℚ))) 1) (fsub f i))) ∧
      linear_schedule 1 (fl (1 / 10)) 0 100 = 1 ∧
      linear_schedule 1 (fl (1 / 10)) 50 100 = fl (11 / 20) ∧
      linear_schedule 1 (fl (1 / 10)) 100 100 =
        900719925474099 / 9007199254740992 ∧
      linear_schedule 1 (fl (1 / 10)) 150 100 =
        900719925474099 / 9007199254740992 :=
  ⟨fun i f s m => rfl, by decide, by decide, by decide, by decide⟩
